import Mathlib

/-!
Verification of the WiFi signal logger (`src/wifiapp.py`).

The program polls WiFi signal strength via `nmcli`, estimates distance with a
log-distance path-loss model, persists readings in SQLite and serves them over
HTTP.  This file embeds the domain logic shallowly:

* Python float arithmetic in `calculate_distance` is modelled with exact real
  numbers (`ℝ`); `10 ** exponent` becomes `Real.rpow`, and the `except`
  branch of the source is represented by an explicit overflow guard: CPython
  raises OverflowError from `10 ** exponent` exactly when the power exceeds
  the largest finite double, which for integer inputs happens exactly when
  the normalized rssi is `≤ -6216` (the boundary exponents `308.25` and
  `308.3` land far from `DBL_MAX`, so float rounding cannot flip the test).
  Python `round(x, 2)` rounds half to even on binary floats; on the values
  reached by this program no exact half-way tie arises, so it is modelled
  with Mathlib's `round` (half-up), which agrees off ties.
* The SQLite table is modelled as a list of `Reading` rows plus the
  autoincrement counter; `ORDER BY timestamp DESC` (byte-order comparison of
  TEXT) is modelled as a merge sort by the string order, descending.
* External inputs (the raw `nmcli` stdout, the wall clock) are explicit
  parameters; `none` as the stdout models the subprocess call itself raising.
-/

namespace WifiApp

/-- Constant `REFERENCE_RSSI = -50` dBm, RSSI at 1 m distance (line 11 of
the source). -/
def REFERENCE_RSSI : ℤ := -50

/-- Constant `PATH_LOSS_EXPONENT = 2`, the path-loss exponent (line 12). -/
def PATH_LOSS_EXPONENT : ℤ := 2

/-- Model of Python `round(x, 2)`: round `x * 100` to the nearest integer and
divide back.  Python rounds half to even; no value this program rounds is an
exact half-way tie, so Mathlib's `round` (half away from zero at `.5`)
coincides there. -/
noncomputable def round2 (x : ℝ) : ℝ := (round (x * 100) : ℤ) / 100

/-- Largest finite IEEE-754 double, `(2^53 - 1) * 2^971 = 2^1024 - 2^971`,
as an exact real number. -/
def DBL_MAX : ℝ := ((2 ^ 1024 - 2 ^ 971 : ℕ) : ℝ)

/-- Body of `calculate_distance` after the normalization step (lines 52-60
together with the `except` handler of lines 61-63), applied to the already
normalized RSSI: `distance_feet = 10 ** exponent * 3.28084`, rounded to two
decimals; if `10 ** exponent` exceeds `DBL_MAX`, CPython raises OverflowError
and the handler returns `0`.  For every integer argument the exact-real guard
`DBL_MAX < 10 ^ exponent` agrees with CPython's OverflowError (the exponents
are multiples of `0.05`, and at the two integers bracketing the threshold the
power misses `DBL_MAX` by several percent, far beyond float rounding error).
One caveat is documented rather than modelled: for normalized rssi in
`[-6215, -6205]` the power itself fits but the multiplication by `3.28084`
silently overflows to `inf` in Python (float multiplication does not raise,
and `round(inf, 2)` is `inf`); the model returns the huge exact real instead.
Both readings compare greater-or-equal against every other reachable value,
and no claim's truth distinguishes them — the scan/debug handlers only ever
evaluate the estimator on filtered inputs `≥ -80`, far from overflow. -/
noncomputable def distance_from_rssi (rssi : ℤ) : ℝ :=
  let exponent : ℝ := ((REFERENCE_RSSI : ℝ) - (rssi : ℝ)) / (10 * (PATH_LOSS_EXPONENT : ℝ))
  if DBL_MAX < (10 : ℝ) ^ exponent then 0
  else round2 ((10 : ℝ) ^ exponent * 3.28084)

/-- Model of `calculate_distance` (lines 45-63).  A positive RSSI is first
normalized by subtracting 100 (lines 48-50); the rest of the function —
formula and error handler — is `distance_from_rssi`. -/
noncomputable def calculate_distance (rssi : ℤ) : ℝ :=
  distance_from_rssi (if rssi > 0 then rssi - 100 else rssi)

/-- Model of Python's `str.strip()` on the character list: drop leading and
trailing whitespace (ASCII model of Python's notion of whitespace). -/
def pyStripChars (l : List Char) : List Char :=
  ((l.dropWhile Char.isWhitespace).reverse.dropWhile Char.isWhitespace).reverse

/-- Model of Python's `str.strip()`. -/
def pyStrip (s : String) : String := String.mk (pyStripChars s.data)

/-- Model of Python's `str.split(sep)` for a one-character separator, on the
character list: splitting the empty string gives `[[]]`, every occurrence of
the separator starts a new (possibly empty) part. -/
def pySplitChars (sep : Char) : List Char → List (List Char)
  | [] => [[]]
  | c :: rest =>
    if c = sep then [] :: pySplitChars sep rest
    else
      match pySplitChars sep rest with
      | [] => [[c]]
      | part :: parts => (c :: part) :: parts

/-- Model of Python's `str.split(sep)` for a one-character separator. -/
def pySplit (sep : Char) (s : String) : List String :=
  (pySplitChars sep s.data).map String.mk

/-- Digit part accepted by Python's `int()`: a non-empty ASCII digit string in
which single underscores may stand between two digits. -/
def pyIntDigits : List Char → Bool
  | [] => false
  | [c] => c.isDigit
  | c :: '_' :: rest => c.isDigit && pyIntDigits rest
  | c :: rest => c.isDigit && pyIntDigits rest

/-- Numeric value of an ASCII digit. -/
def digitVal (c : Char) : ℤ := (c.toNat : ℤ) - 48

/-- Value of a decimal digit string. -/
def digitsVal (l : List Char) : ℤ := l.foldl (fun acc c => 10 * acc + digitVal c) 0

/-- Model of Python's `int(string)`: strip surrounding whitespace, accept an
optional sign followed by a non-empty digit string (ASCII model; underscores
between digits are accepted, as in Python).  `none` models the ValueError
Python raises otherwise. -/
def pyInt? (s : String) : Option ℤ :=
  match pyStripChars s.data with
  | '-' :: ds =>
    if pyIntDigits ds then some (-(digitsVal (ds.filter (fun c => c != '_')))) else none
  | '+' :: ds =>
    if pyIntDigits ds then some (digitsVal (ds.filter (fun c => c != '_'))) else none
  | ds =>
    if pyIntDigits ds then some (digitsVal (ds.filter (fun c => c != '_'))) else none

/-- Model of one iteration of the parse loop in `get_wifi_signal` (lines
37-39): `ssid, signal = line.split(":")` raises ValueError unless the line
has exactly one colon, and `int(signal)` raises on a non-integer field;
`none` models the raised exception. -/
def parseLine (line : String) : Option (String × ℤ) :=
  match pySplit ':' line with
  | [ssid, signal] => (pyInt? signal).map (fun n => (ssid, n))
  | _ => none

/-- Parse loop of `get_wifi_signal` (lines 36-40): the pairs are accumulated
line by line; a line that raises makes the whole loop raise, discarding the
pairs parsed so far (`none`). -/
def parseLines : List String → Option (List (String × ℤ))
  | [] => some []
  | line :: rest =>
    match parseLine line with
    | none => none
    | some p =>
      match parseLines rest with
      | none => none
      | some ps => some (p :: ps)

/-- Model of `get_wifi_signal` (lines 31-43).  The argument is the stdout of
the `nmcli` subprocess; `none` models the subprocess call itself raising
(utility missing, non-zero exit status, permission denied).  Any exception
inside the `try` block — including a ValueError from a malformed line, which
discards the pairs parsed so far — is caught and the empty list is returned. -/
def get_wifi_signal (nmcliOutput : Option String) : List (String × ℤ) :=
  match nmcliOutput with
  | none => []
  | some raw =>
    match parseLines (pySplit '\n' (pyStrip raw)) with
    | some wifi_info => wifi_info
    | none => []

/-- Row of the `wifi_signal` SQLite table (lines 19-27): autoincrement id,
capture timestamp rendered as `%Y-%m-%d %H:%M:%S` TEXT, SSID, raw RSSI, and
the derived distance. -/
structure Reading where
  id : ℕ
  timestamp : String
  ssid : String
  rssi : ℤ
  distance : ℝ

/-- State of the store: the table rows in insertion order together with the
next AUTOINCREMENT identifier. -/
structure DBState where
  rows : List Reading
  nextId : ℕ

/-- Model of `log_to_database` (lines 67-75): append one row, stamped with the
wall-clock string `ts` (an external input in the source, `datetime.now()`)
and the next AUTOINCREMENT id. -/
def log_to_database (st : DBState) (ts ssid : String) (rssi : ℤ) (distance : ℝ) : DBState :=
  { rows := st.rows ++
      [{ id := st.nextId, timestamp := ts, ssid := ssid, rssi := rssi, distance := distance }],
    nextId := st.nextId + 1 }

/-- Comparator for `ORDER BY timestamp DESC`: SQLite compares TEXT by byte
order, modelled by the string order, descending. -/
def byTimestampDesc (a b : Reading) : Bool := decide (b.timestamp ≤ a.timestamp)

/-- Model of `fetch_logs` (lines 77-87).  Python's `if filter_ssid:` treats
both `None` and the empty string as "no filter"; with a truthy filter the
`WHERE ssid = ?` clause keeps the matching rows.  `ORDER BY timestamp DESC`
is modelled as a merge sort by `byTimestampDesc`. -/
def fetch_logs (db : List Reading) (filter_ssid : Option String) : List Reading :=
  match filter_ssid with
  | some s =>
    if s != "" then (db.filter (fun r => r.ssid == s)).mergeSort byTimestampDesc
    else db.mergeSort byTimestampDesc
  | none => db.mergeSort byTimestampDesc

/-- Fixed CSV header row written by `export_logs_to_csv` (line 95). -/
def csvHeader : List String := ["ID", "Timestamp", "SSID", "RSSI (dBm)", "Distance (m)"]

/-- Model of `export_logs_to_csv` (lines 89-97): the rows written to the CSV
file — the fixed header followed by one row per reading returned by the
unfiltered fetch.  Rendering the real-valued distance cell is Python float
formatting, abstracted as `fmt`. -/
def export_logs_to_csv (fmt : ℝ → String) (db : List Reading) : List (List String) :=
  csvHeader ::
    (fetch_logs db none).map
      (fun r => [toString r.id, r.timestamp, r.ssid, toString r.rssi, fmt r.distance])

/-- Loop body of the `/scan` handler (lines 111-116): drop pairs with
`rssi < -80`, otherwise compute the distance and insert; `clock k` is the
wall-clock string observed by the k-th insert of this request. -/
noncomputable def scanLoop (clock : ℕ → String) :
    List (String × ℤ) → ℕ → DBState → DBState
  | [], _, st => st
  | (ssid, rssi) :: rest, k, st =>
    if rssi < -80 then scanLoop clock rest k st
    else scanLoop clock rest (k + 1)
      (log_to_database st (clock k) ssid rssi (calculate_distance rssi))

/-- Model of the `/scan` handler (lines 106-117): run the signal source, loop
over the pairs (the `if wifi_signals:` guard skips the loop on an empty
result), and always answer with the `"Scan complete"` acknowledgement. -/
noncomputable def scan (clock : ℕ → String) (nmcliOutput : Option String) (st : DBState) :
    String × DBState :=
  let wifi_signals := get_wifi_signal nmcliOutput
  (("Scan complete" : String),
    if wifi_signals = [] then st else scanLoop clock wifi_signals 0 st)

/-- Entry of the JSON answer of the `/debug` handler (line 142). -/
structure DebugEntry where
  SSID : String
  RSSI : ℤ
  Distance : ℝ

/-- Loop body of the `/debug` handler (lines 138-142): same weak-signal filter
and estimator as `/scan`, but the results are only collected, not persisted. -/
noncomputable def debugLoop : List (String × ℤ) → List DebugEntry
  | [] => []
  | (ssid, rssi) :: rest =>
    if rssi < -80 then debugLoop rest
    else { SSID := ssid, RSSI := rssi, Distance := calculate_distance rssi } :: debugLoop rest

/-- Model of the `/debug` handler (lines 133-143). -/
noncomputable def debug_logs (nmcliOutput : Option String) : List DebugEntry :=
  debugLoop (get_wifi_signal nmcliOutput)

/-- Example store contents used as concrete witness data. -/
def sampleDB : List Reading :=
  [{ id := 1, timestamp := "2024-01-01 10:00:00", ssid := "A", rssi := -60, distance := 0 },
   { id := 2, timestamp := "2024-01-02 10:00:00", ssid := "B", rssi := -70, distance := 0 }]

/-- Rounding to two decimals is monotone. -/
theorem round2_mono {x y : ℝ} (h : x ≤ y) : round2 x ≤ round2 y := by
  unfold round2
  have h1 : round (x * 100) ≤ round (y * 100) := by
    rw [round_eq, round_eq]
    exact Int.floor_mono (by linarith)
  have h2 : ((round (x * 100) : ℤ) : ℝ) ≤ ((round (y * 100) : ℤ) : ℝ) := by
    exact_mod_cast h1
  linarith

/-- Rounding to two decimals preserves non-negativity. -/
theorem round2_nonneg {x : ℝ} (h : 0 ≤ x) : 0 ≤ round2 x := by
  have h0 : round2 0 ≤ round2 x := round2_mono h
  have : round2 (0 : ℝ) = 0 := by
    unfold round2
    norm_num
  linarith [h0, this]

/-- Helper: the rounded one-meter reference value, `round2 (1 * 3.28084) = 3.28`. -/
theorem round2_of_one_meter : round2 ((10 : ℝ) ^ ((0 : ℝ)) * 3.28084) = 3.28 := by
  rw [Real.rpow_zero]
  unfold round2
  rw [show ((1 : ℝ) * 3.28084 * 100) = 328.084 by norm_num]
  rw [round_eq]
  norm_num

set_option exponentiation.threshold 2000 in
set_option maxRecDepth 10000 in
/-- Helper: the integer comparison behind the overflow bound — the fourth
power of the largest double dominates `10^1233 = (10^308.25)^4`. -/
theorem pow_ten_1233_le : (10 ^ 1233 : ℕ) ≤ (2 ^ 1024 - 2 ^ 971 : ℕ) ^ 4 := by decide

set_option exponentiation.threshold 2000 in
set_option maxRecDepth 10000 in
/-- Helper: the integer comparison behind the overflow counterexample — the
largest double is below `10^309`. -/
theorem DBL_MAX_nat_lt : (2 ^ 1024 - 2 ^ 971 : ℕ) < 10 ^ 309 := by decide

/-- Helper: powers of ten with exponent at most `308.25` stay below the
largest double (comparing fourth powers as integers). -/
theorem rpow_le_DBL_MAX {e : ℝ} (he : e ≤ 308.25) : (10 : ℝ) ^ e ≤ DBL_MAX := by
  have h1 : (10 : ℝ) ^ e ≤ (10 : ℝ) ^ ((308.25 : ℝ)) :=
    Real.rpow_le_rpow_of_exponent_le (by norm_num) he
  have hD : (0 : ℝ) ≤ DBL_MAX := by
    unfold DBL_MAX
    exact Nat.cast_nonneg _
  have h4 : ((10 : ℝ) ^ ((308.25 : ℝ))) ^ (4 : ℕ) ≤ DBL_MAX ^ (4 : ℕ) := by
    rw [← Real.rpow_natCast ((10 : ℝ) ^ ((308.25 : ℝ))) 4,
      ← Real.rpow_mul (by norm_num : (0 : ℝ) ≤ 10)]
    rw [show ((308.25 : ℝ) * ((4 : ℕ) : ℝ)) = (((1233 : ℕ) : ℝ)) by norm_num]
    rw [Real.rpow_natCast]
    unfold DBL_MAX
    calc ((10 : ℝ) ^ (1233 : ℕ)) = (((10 ^ 1233 : ℕ) : ℝ)) := by push_cast; ring
    _ ≤ (((2 ^ 1024 - 2 ^ 971 : ℕ) ^ 4 : ℕ) : ℝ) := by exact_mod_cast pow_ten_1233_le
    _ = (((2 ^ 1024 - 2 ^ 971 : ℕ) : ℝ)) ^ (4 : ℕ) := by push_cast; ring
  have h5 : (10 : ℝ) ^ ((308.25 : ℝ)) ≤ DBL_MAX :=
    le_of_pow_le_pow_left₀ (by norm_num) hD h4
  exact le_trans h1 h5

/-- Helper: the power of ten at exponent `347.5` (reached at input `-7000`)
exceeds the largest double. -/
theorem DBL_MAX_lt_rpow : DBL_MAX < (10 : ℝ) ^ ((347.5 : ℝ)) := by
  have h1 : DBL_MAX < (10 : ℝ) ^ ((309 : ℕ) : ℝ) := by
    rw [Real.rpow_natCast]
    unfold DBL_MAX
    calc (((2 ^ 1024 - 2 ^ 971 : ℕ)) : ℝ) < (((10 ^ 309 : ℕ)) : ℝ) := by
          exact_mod_cast DBL_MAX_nat_lt
    _ = (10 : ℝ) ^ (309 : ℕ) := by push_cast; ring
  have h2 : (10 : ℝ) ^ ((309 : ℕ) : ℝ) ≤ (10 : ℝ) ^ ((347.5 : ℝ)) :=
    Real.rpow_le_rpow_of_exponent_le (by norm_num) (by norm_num)
  exact lt_of_lt_of_le h1 h2

/-- Normal form of `distance_from_rssi` when the power cannot overflow, i.e.
for normalized inputs `≥ -6215` (exponent at most `308.25`). -/
theorem distance_from_rssi_eq (s : ℤ) (h : -6215 ≤ s) :
    distance_from_rssi s = round2 ((10 : ℝ) ^ (((-50 : ℝ) - (s : ℝ)) / 20) * 3.28084) := by
  have hs : (-6215 : ℝ) ≤ (s : ℝ) := by exact_mod_cast h
  have hcast : ((REFERENCE_RSSI : ℝ) - (s : ℝ)) / (10 * (PATH_LOSS_EXPONENT : ℝ))
      = ((-50 : ℝ) - (s : ℝ)) / 20 := by
    simp only [REFERENCE_RSSI, PATH_LOSS_EXPONENT]
    push_cast
    ring
  simp only [distance_from_rssi]
  rw [hcast]
  rw [if_neg (not_lt.mpr (rpow_le_DBL_MAX (by linarith)))]

/-- Normal form of `calculate_distance` on non-positive inputs above the
overflow threshold: the normalization branch is not taken and the formula
value is returned. -/
theorem calculate_distance_of_nonpos (s : ℤ) (h1 : -6215 ≤ s) (h2 : s ≤ 0) :
    calculate_distance s = round2 ((10 : ℝ) ^ (((-50 : ℝ) - (s : ℝ)) / 20) * 3.28084) := by
  unfold calculate_distance
  rw [if_neg (by omega)]
  exact distance_from_rssi_eq s h1

/-- Normal form of `calculate_distance` on positive inputs: the input is
replaced by `s - 100` before the formula (the exponent is then at most
`149/20`, far below overflow). -/
theorem calculate_distance_of_pos (s : ℤ) (h : 0 < s) :
    calculate_distance s = round2 ((10 : ℝ) ^ (((-50 : ℝ) - ((s : ℝ) - 100)) / 20) * 3.28084) := by
  unfold calculate_distance
  rw [if_pos (by omega)]
  rw [distance_from_rssi_eq (s - 100) (by omega)]
  push_cast
  ring_nf

/-- Helper: the estimate at the calibration input `-50` is `3.28`. -/
theorem calculate_distance_minus50 : calculate_distance (-50) = 3.28 := by
  have h0 : calculate_distance (-50) = round2 ((10 : ℝ) ^ ((0 : ℝ)) * 3.28084) := by
    rw [calculate_distance_of_nonpos (-50) (by omega) (by omega)]
    norm_num
  rw [h0]
  exact round2_of_one_meter

/-- Counterexample to claim C1 as stated: at `signal_strength = -7000` (which
is `≤ -50`) the exponent is `347.5`, CPython's `10 ** exponent` overflows and
the except branch returns `0`, which is smaller than the `3.28` estimated at
`-50` — so the estimator is not antitone on all of `s ≤ -50`. -/
theorem calculate_distance_antitone_cex :
    (-7000 : ℤ) ≤ -50 ∧ calculate_distance (-7000) = 0 ∧
    calculate_distance (-50) = 3.28 ∧
    calculate_distance (-7000) < calculate_distance (-50) := by
  have h7000 : calculate_distance (-7000) = 0 := by
    unfold calculate_distance
    rw [if_neg (by omega)]
    simp only [distance_from_rssi]
    rw [show ((REFERENCE_RSSI : ℝ) - (((-7000 : ℤ)) : ℝ)) / (10 * (PATH_LOSS_EXPONENT : ℝ))
        = (347.5 : ℝ) by
      simp only [REFERENCE_RSSI, PATH_LOSS_EXPONENT]
      push_cast
      norm_num]
    rw [if_pos DBL_MAX_lt_rpow]
  have h50 := calculate_distance_minus50
  refine ⟨by omega, h7000, h50, ?_⟩
  rw [h7000, h50]
  norm_num

/-- Claim C1 (amended): on the range `-6215 ≤ s ≤ -50` — all inputs at which
the source's `10 ** exponent` does not overflow — the estimator is antitone:
for `s1 ≤ s2` in this range the estimate at `s2` is at most the one at `s1`,
even after rounding to two decimal places; instantiating `s2 := -50` gives
the spec's statement that such `s` estimate at least
`calculate_distance (-50)`.  For `s ≤ -6216` the power overflows, the except
branch returns `0`, and the original claim fails (see the counterexample). -/
theorem calculate_distance_antitone (s1 s2 : ℤ) (h0 : -6215 ≤ s1) (h12 : s1 ≤ s2)
    (h2 : s2 ≤ -50) : calculate_distance s2 ≤ calculate_distance s1 := by
  rw [calculate_distance_of_nonpos s1 (by omega) (by omega),
    calculate_distance_of_nonpos s2 (by omega) (by omega)]
  apply round2_mono
  have hcast : (s1 : ℝ) ≤ (s2 : ℝ) := by exact_mod_cast h12
  have hexp : ((-50 : ℝ) - (s2 : ℝ)) / 20 ≤ ((-50 : ℝ) - (s1 : ℝ)) / 20 := by linarith
  have hpow : (10 : ℝ) ^ (((-50 : ℝ) - (s2 : ℝ)) / 20) ≤ (10 : ℝ) ^ (((-50 : ℝ) - (s1 : ℝ)) / 20) :=
    Real.rpow_le_rpow_of_exponent_le (by norm_num) hexp
  nlinarith [hpow]

/-- Witness for amended C1 at `s1 = -60`, `s2 = -50`. -/
theorem calculate_distance_antitone_witness :
    (-6215 : ℤ) ≤ -60 ∧ (-60 : ℤ) ≤ -50 ∧ (-50 : ℤ) ≤ -50 ∧
    calculate_distance (-50) ≤ calculate_distance (-60) :=
  ⟨by decide, by decide, by decide,
    calculate_distance_antitone (-60) (-50) (by decide) (by decide) (by decide)⟩

/-- Claim C2: at the calibration point `-50` dBm the estimate is exactly one
meter converted to feet by the factor 3.28084 and rounded to two decimals,
namely `3.28`. -/
theorem calculate_distance_at_reference :
    calculate_distance (-50) = round2 ((1 : ℝ) * 3.28084) ∧ calculate_distance (-50) = 3.28 := by
  have h0 : calculate_distance (-50) = round2 ((10 : ℝ) ^ ((0 : ℝ)) * 3.28084) := by
    rw [calculate_distance_of_nonpos (-50) (by omega) (by omega)]
    norm_num
  have h1 : (10 : ℝ) ^ ((0 : ℝ)) = 1 := Real.rpow_zero 10
  constructor
  · rw [h0, h1]
  · exact calculate_distance_minus50

/-- Counterexample to claim C3 as stated: at the positive input
`signal_strength = 150` the estimate differs from the estimate at
`150 - 100 = 50`, because `50` is itself positive and is normalized a second
time by `calculate_distance`: `estimate 150 = 0` while `estimate 50 = 3.28`. -/
theorem calculate_distance_shift_cex :
    (0 : ℤ) < 150 ∧ calculate_distance 150 ≠ calculate_distance (150 - 100) := by
  refine ⟨by decide, ?_⟩
  have h150 : calculate_distance 150 = 0 := by
    rw [calculate_distance_of_pos 150 (by omega)]
    rw [show ((-50 : ℝ) - (((150 : ℤ) : ℝ) - 100)) / 20 = ((-5 : ℤ) : ℝ) by push_cast; norm_num]
    rw [Real.rpow_intCast]
    unfold round2
    rw [show ((10 : ℝ) ^ (-5 : ℤ) * 3.28084 * 100) = 0.00328084 by norm_num]
    rw [round_eq]
    norm_num
  have h50 : calculate_distance (150 - 100) = 3.28 := by
    rw [show ((150 : ℤ) - 100) = 50 by norm_num]
    rw [calculate_distance_of_pos 50 (by omega)]
    rw [show ((-50 : ℝ) - (((50 : ℤ) : ℝ) - 100)) / 20 = (0 : ℝ) by push_cast; norm_num]
    exact round2_of_one_meter
  rw [h150, h50]
  norm_num

/-- Claim C3 (amended): for a positive input `s` the estimate agrees with the
estimate at `s - 100` provided `s ≤ 100` (so that `s - 100` is not positive
and is not normalized a second time); in particular `estimate 30 =
estimate (-70)`.  On inputs `≤ 0` (including 0) no normalization is applied:
the rest of the function — formula and error handler, `distance_from_rssi` —
is applied to the input unchanged. -/
theorem calculate_distance_normalize (s : ℤ) :
    (0 < s → s ≤ 100 → calculate_distance s = calculate_distance (s - 100)) ∧
    (s ≤ 0 → calculate_distance s = distance_from_rssi s) := by
  constructor
  · intro h1 h2
    unfold calculate_distance
    rw [if_pos (by omega), if_neg (by omega)]
  · intro h
    unfold calculate_distance
    rw [if_neg (by omega)]

/-- Witness for amended C3 at `s = 30`: `estimate 30 = estimate (-70)`. -/
theorem calculate_distance_normalize_witness :
    (0 : ℤ) < 30 ∧ (30 : ℤ) ≤ 100 ∧ calculate_distance 30 = calculate_distance (-70) := by
  refine ⟨by decide, by decide, ?_⟩
  have h := (calculate_distance_normalize 30).1 (by decide) (by decide)
  norm_num at h
  exact h

/-- Helper: the post-normalization body is non-negative on every input: the
overflow handler returns `0` and the normal path rounds a positive value. -/
theorem distance_from_rssi_nonneg (t : ℤ) : 0 ≤ distance_from_rssi t := by
  simp only [distance_from_rssi]
  split
  · exact le_refl 0
  · apply round2_nonneg
    have := Real.rpow_pos_of_pos (show (0 : ℝ) < 10 by norm_num)
      (((REFERENCE_RSSI : ℝ) - (t : ℝ)) / (10 * (PATH_LOSS_EXPONENT : ℝ)))
    nlinarith

/-- Claim C4: on every integer input the estimator returns a non-negative real
and never raises.  The normal path is the rounded value of a positive formula
result, hence non-negative; the arithmetic-error path (float overflow in
`10 ** exponent`) returns the fallback value `0`, non-negative as well, and
totality of the model is the never-raises part of the contract. -/
theorem calculate_distance_nonneg (s : ℤ) : 0 ≤ calculate_distance s := by
  unfold calculate_distance
  exact distance_from_rssi_nonneg _

/-- Helper: the rows after the scan loop project to the old rows followed by
exactly the pairs that pass the `< -80` filter, each with its derived
distance. -/
theorem scanLoop_rows (clock : ℕ → String) (wifi : List (String × ℤ)) :
    ∀ (k : ℕ) (st : DBState),
      (scanLoop clock wifi k st).rows.map (fun r => (r.ssid, r.rssi, r.distance))
        = st.rows.map (fun r => (r.ssid, r.rssi, r.distance))
          ++ (wifi.filter (fun p => !decide (p.2 < -80))).map
              (fun p => (p.1, p.2, calculate_distance p.2)) := by
  induction wifi with
  | nil =>
    intro k st
    simp [scanLoop]
  | cons hd tl ih =>
    obtain ⟨ssid, rssi⟩ := hd
    intro k st
    by_cases h : rssi < -80
    · simp [scanLoop, h, ih]
    · simp [scanLoop, h, ih, log_to_database]

/-- Helper: the scan handler's row equation, for any signal-source outcome. -/
theorem scan_rows_eq (clock : ℕ → String) (out : Option String) (st : DBState) :
    (scan clock out st).2.rows.map (fun r => (r.ssid, r.rssi, r.distance))
      = st.rows.map (fun r => (r.ssid, r.rssi, r.distance))
        ++ ((get_wifi_signal out).filter (fun p => !decide (p.2 < -80))).map
            (fun p => (p.1, p.2, calculate_distance p.2)) := by
  unfold scan
  by_cases h : get_wifi_signal out = []
  · simp [h]
  · simp only [h, if_neg h]
    exact scanLoop_rows clock (get_wifi_signal out) 0 st

/-- Helper: every row present after the scan loop was either already stored or
comes from a scan pair, stored with its raw RSSI and the distance derived from
that raw RSSI. -/
theorem scanLoop_mem (clock : ℕ → String) (wifi : List (String × ℤ)) :
    ∀ (k : ℕ) (st : DBState) (r : Reading), r ∈ (scanLoop clock wifi k st).rows →
      r ∈ st.rows ∨ ((r.ssid, r.rssi) ∈ wifi ∧ r.distance = calculate_distance r.rssi) := by
  induction wifi with
  | nil =>
    intro k st r h
    simp only [scanLoop] at h
    exact Or.inl h
  | cons hd tl ih =>
    obtain ⟨ssid, rssi⟩ := hd
    intro k st r h
    by_cases hw : rssi < -80
    · rcases ih _ _ r (by simpa [scanLoop, hw] using h) with h1 | ⟨h2, h3⟩
      · exact Or.inl h1
      · exact Or.inr ⟨List.mem_cons_of_mem _ h2, h3⟩
    · rcases ih _ _ r (by simpa [scanLoop, hw] using h) with h1 | ⟨h2, h3⟩
      · rcases (show r ∈ st.rows ∨
            r = (⟨st.nextId, clock k, ssid, rssi, calculate_distance rssi⟩ : Reading) by
              simpa [log_to_database] using h1) with h4 | h4
        · exact Or.inl h4
        · subst h4
          exact Or.inr ⟨List.mem_cons_self _ _, rfl⟩
      · exact Or.inr ⟨List.mem_cons_of_mem _ h2, h3⟩

/-- Helper: the debug handler's entries project to exactly the pairs that pass
the `< -80` filter, each with its derived distance. -/
theorem debugLoop_map (wifi : List (String × ℤ)) :
    (debugLoop wifi).map (fun d => (d.SSID, d.RSSI, d.Distance))
      = (wifi.filter (fun p => !decide (p.2 < -80))).map
          (fun p => (p.1, p.2, calculate_distance p.2)) := by
  induction wifi with
  | nil => simp [debugLoop]
  | cons hd tl ih =>
    obtain ⟨ssid, rssi⟩ := hd
    by_cases h : rssi < -80
    · simp [debugLoop, h, ih]
    · simp [debugLoop, h, ih]

/-- Claim C5: for every signal-source outcome, the scan handler appends to the
store exactly the received pairs whose raw `signal_strength` is not below
`-80` — pairs with `signal_strength < -80` are discarded before estimation
and insertion, all others are estimated and inserted.  In particular, on the
scan output `HomeNet:-60, Guest:-85` over an empty store only `HomeNet` is
persisted. -/
theorem scan_weak_signal_filter (clock : ℕ → String) (out : Option String) (st : DBState) :
    ((scan clock out st).2.rows.map (fun r => (r.ssid, r.rssi, r.distance))
      = st.rows.map (fun r => (r.ssid, r.rssi, r.distance))
        ++ ((get_wifi_signal out).filter (fun p => !decide (p.2 < -80))).map
            (fun p => (p.1, p.2, calculate_distance p.2))) ∧
    (scan clock (some "HomeNet:-60\nGuest:-85") ⟨[], 0⟩).2.rows.map
        (fun r => (r.ssid, r.rssi)) = [("HomeNet", -60)] := by
  refine ⟨scan_rows_eq clock out st, ?_⟩
  have h1 : get_wifi_signal (some "HomeNet:-60\nGuest:-85")
      = [("HomeNet", -60), ("Guest", -85)] := by decide
  have h2 : (scan clock (some "HomeNet:-60\nGuest:-85") ⟨[], 0⟩).2
      = scanLoop clock [("HomeNet", -60), ("Guest", -85)] 0 ⟨[], 0⟩ := by
    simp [scan, h1]
  rw [h2]
  norm_num [scanLoop, log_to_database]

/-- Claim C6: the weak-signal filter of the scan and debug handlers tests the
raw, as-received `signal_strength` before the estimator's normalization, so a
pair with positive raw signal strength is never discarded: it is persisted by
`/scan` and listed by `/debug` with its raw value. -/
theorem raw_filter_positive_pass (clock : ℕ → String) (out : Option String) (st : DBState)
    (ssid : String) (rssi : ℤ)
    (hmem : (ssid, rssi) ∈ get_wifi_signal out) (hpos : 0 < rssi) :
    (∃ r ∈ (scan clock out st).2.rows, r.ssid = ssid ∧ r.rssi = rssi) ∧
    (∃ d ∈ debug_logs out, d.SSID = ssid ∧ d.RSSI = rssi) := by
  have hkeep : (!decide (rssi < -80)) = true := by
    simp only [Bool.not_eq_true', decide_eq_false_iff_not]
    omega
  have hfil : (ssid, rssi) ∈ (get_wifi_signal out).filter (fun p => !decide (p.2 < -80)) :=
    List.mem_filter.mpr ⟨hmem, hkeep⟩
  have htrip : ((ssid, rssi, calculate_distance rssi)) ∈
      ((get_wifi_signal out).filter (fun p => !decide (p.2 < -80))).map
        (fun p => (p.1, p.2, calculate_distance p.2)) :=
    List.mem_map_of_mem _ hfil
  constructor
  · have h2 : ((ssid, rssi, calculate_distance rssi)) ∈
        (scan clock out st).2.rows.map (fun r => (r.ssid, r.rssi, r.distance)) := by
      rw [scan_rows_eq clock out st]
      exact List.mem_append_right _ htrip
    rcases List.mem_map.mp h2 with ⟨r, hr, hproj⟩
    exact ⟨r, hr, congrArg (fun t => t.1) hproj,
      congrArg (fun t => t.2.1) hproj⟩
  · have h2 : ((ssid, rssi, calculate_distance rssi)) ∈
        (debug_logs out).map (fun d => (d.SSID, d.RSSI, d.Distance)) := by
      unfold debug_logs
      rw [debugLoop_map]
      exact htrip
    rcases List.mem_map.mp h2 with ⟨d, hd, hproj⟩
    exact ⟨d, hd, congrArg (fun t => t.1) hproj,
      congrArg (fun t => t.2.1) hproj⟩

/-- Witness for C6: the pair `(Net, 30)`, with positive raw signal, is
persisted by the scan handler and listed by the debug handler. -/
theorem raw_filter_positive_pass_witness :
    (("Net", (30 : ℤ)) ∈ get_wifi_signal (some "Net:30")) ∧ (0 : ℤ) < 30 ∧
    ((∃ r ∈ (scan (fun _ => "t") (some "Net:30") ⟨[], 0⟩).2.rows,
        r.ssid = "Net" ∧ r.rssi = 30) ∧
     (∃ d ∈ debug_logs (some "Net:30"), d.SSID = "Net" ∧ d.RSSI = 30)) :=
  ⟨by decide, by decide,
    raw_filter_positive_pass (fun _ => "t") (some "Net:30") ⟨[], 0⟩ "Net" 30
      (by decide) (by decide)⟩

/-- Claim C9: whenever the signal source comes back empty — the subprocess
call raised, or some output line failed to parse (which covers the no-network
and malformed-output cases) — the adapter returns the empty list without
raising, and the scan handler still answers `"Scan complete"` with the store
unchanged. -/
theorem scan_failure_noop (clock : ℕ → String) (out : Option String) (st : DBState)
    (h : out = none ∨ ∃ raw, out = some raw ∧ parseLines (pySplit '\n' (pyStrip raw)) = none) :
    get_wifi_signal out = [] ∧ scan clock out st = ("Scan complete", st) := by
  have hempty : get_wifi_signal out = [] := by
    rcases h with h | ⟨raw, hraw, hfail⟩
    · rw [h]
      rfl
    · rw [hraw]
      simp [get_wifi_signal, hfail]
  exact ⟨hempty, by simp [scan, hempty]⟩

/-- Witness for C9: the malformed output `garbage` (no colon) yields an empty
scan that leaves the store unchanged. -/
theorem scan_failure_noop_witness :
    ((some "garbage" : Option String) = none ∨
      ∃ raw, (some "garbage" : Option String) = some raw ∧
        parseLines (pySplit '\n' (pyStrip raw)) = none) ∧
    get_wifi_signal (some "garbage") = [] ∧
    scan (fun _ => "t") (some "garbage") ⟨[], 0⟩ = ("Scan complete", ⟨[], 0⟩) :=
  ⟨Or.inr ⟨"garbage", rfl, by decide⟩,
    scan_failure_noop (fun _ => "t") (some "garbage") ⟨[], 0⟩
      (Or.inr ⟨"garbage", rfl, by decide⟩)⟩

/-- Claim C10: every row present after a scan either was already stored or
stores the raw, as-received pair from the scan source unmodified, with its
distance equal to `calculate_distance` applied to that same raw value —
normalization happens only inside the estimator, never to the stored value. -/
theorem scan_persists_raw (clock : ℕ → String) (out : Option String) (st : DBState)
    (r : Reading) (h : r ∈ (scan clock out st).2.rows) :
    r ∈ st.rows ∨
      ((r.ssid, r.rssi) ∈ get_wifi_signal out ∧ r.distance = calculate_distance r.rssi) := by
  unfold scan at h
  by_cases hw : get_wifi_signal out = []
  · simp only [hw, if_pos] at h
    exact Or.inl (by simpa using h)
  · simp only [if_neg hw] at h
    exact scanLoop_mem clock (get_wifi_signal out) 0 st r h

/-- Witness for C10: after scanning `Net:30` over an empty store, the stored
row carries the raw positive RSSI `30` and the distance derived from it. -/
theorem scan_persists_raw_witness :
    ((⟨0, "t", "Net", 30, calculate_distance 30⟩ : Reading) ∈
        (scan (fun _ => "t") (some "Net:30") ⟨[], 0⟩).2.rows) ∧
    ((⟨0, "t", "Net", 30, calculate_distance 30⟩ : Reading) ∈ (⟨[], 0⟩ : DBState).rows ∨
      (((⟨0, "t", "Net", 30, calculate_distance 30⟩ : Reading).ssid,
        (⟨0, "t", "Net", 30, calculate_distance 30⟩ : Reading).rssi) ∈
          get_wifi_signal (some "Net:30") ∧
       (⟨0, "t", "Net", 30, calculate_distance 30⟩ : Reading).distance =
         calculate_distance (⟨0, "t", "Net", 30, calculate_distance 30⟩ : Reading).rssi)) := by
  have h1 : get_wifi_signal (some "Net:30") = [("Net", 30)] := by decide
  have hmem : (⟨0, "t", "Net", 30, calculate_distance 30⟩ : Reading) ∈
      (scan (fun _ => "t") (some "Net:30") ⟨[], 0⟩).2.rows := by
    have h2 : (scan (fun _ => "t") (some "Net:30") ⟨[], 0⟩).2
        = scanLoop (fun _ => "t") [("Net", 30)] 0 ⟨[], 0⟩ := by
      simp [scan, h1]
    rw [h2]
    norm_num [scanLoop, log_to_database]
  exact ⟨hmem, scan_persists_raw (fun _ => "t") (some "Net:30") ⟨[], 0⟩ _ hmem⟩

/-- Helper: merge sort by `byTimestampDesc` yields a list sorted descending by
timestamp. -/
theorem sorted_byTimestampDesc (l : List Reading) :
    List.Sorted (fun a b : Reading => b.timestamp ≤ a.timestamp)
      (l.mergeSort byTimestampDesc) := by
  have h := @List.sorted_mergeSort Reading byTimestampDesc
    (fun a b c h1 h2 => by
      simp only [byTimestampDesc, decide_eq_true_eq] at h1 h2 ⊢
      exact le_trans h2 h1)
    (fun a b => by
      simp only [byTimestampDesc]
      rcases le_total a.timestamp b.timestamp with h | h
      · simp [h]
      · simp [h])
    l
  exact List.Pairwise.imp (fun hab => by simpa [byTimestampDesc] using hab) h

/-- Counterexample to claim C7 as stated: with the empty string as the
network-name filter, `fetch_logs` behaves as the unfiltered query (Python
`if filter_ssid:` is false for the empty string), returning a reading whose
network name differs from the filter string. -/
theorem fetch_logs_empty_filter_cex :
    fetch_logs [⟨1, "2024-01-01 10:00:00", "HomeNet", -60, 0⟩] (some "")
      = [⟨1, "2024-01-01 10:00:00", "HomeNet", -60, 0⟩] ∧ ("HomeNet" : String) ≠ "" := by
  constructor
  · show ([(⟨1, "2024-01-01 10:00:00", "HomeNet", -60, 0⟩ : Reading)].mergeSort
      byTimestampDesc) = _
    exact List.perm_singleton.mp (List.mergeSort_perm _ _)
  · decide

/-- Claim C7 (amended): with a non-empty filter string the query returns
exactly the stored readings whose network name equals the filter — a
permutation of the matching rows, every returned row matching — in descending
timestamp order; the unfiltered query returns all stored readings in the same
descending order.  (With the empty-string filter the code behaves as the
unfiltered query; see the counterexample.) -/
theorem fetch_logs_query (db : List Reading) (s : String) (hs : s ≠ "") :
    (fetch_logs db (some s)).Perm (db.filter (fun r => r.ssid == s)) ∧
    List.Sorted (fun a b : Reading => b.timestamp ≤ a.timestamp) (fetch_logs db (some s)) ∧
    (∀ r ∈ fetch_logs db (some s), r.ssid = s) ∧
    (fetch_logs db none).Perm db ∧
    List.Sorted (fun a b : Reading => b.timestamp ≤ a.timestamp) (fetch_logs db none) := by
  have hcond : (s != "") = true := by simpa using hs
  have hdef : fetch_logs db (some s)
      = (db.filter (fun r => r.ssid == s)).mergeSort byTimestampDesc := by
    simp [fetch_logs, hcond]
  refine ⟨?_, ?_, ?_, ?_, ?_⟩
  · rw [hdef]
    exact List.mergeSort_perm _ _
  · rw [hdef]
    exact sorted_byTimestampDesc _
  · intro r hr
    rw [hdef] at hr
    have h1 := List.mem_mergeSort.mp hr
    have h2 := (List.mem_filter.mp h1).2
    simpa using h2
  · exact List.mergeSort_perm _ _
  · exact sorted_byTimestampDesc _

/-- Witness for amended C7 on a concrete two-reading store with filter `A`. -/
theorem fetch_logs_query_witness :
    ("A" : String) ≠ "" ∧
    ((fetch_logs sampleDB (some "A")).Perm (sampleDB.filter (fun r => r.ssid == "A")) ∧
     List.Sorted (fun a b : Reading => b.timestamp ≤ a.timestamp) (fetch_logs sampleDB (some "A")) ∧
     (∀ r ∈ fetch_logs sampleDB (some "A"), r.ssid = "A") ∧
     (fetch_logs sampleDB none).Perm sampleDB ∧
     List.Sorted (fun a b : Reading => b.timestamp ≤ a.timestamp) (fetch_logs sampleDB none)) :=
  ⟨by decide, fetch_logs_query sampleDB "A" (by decide)⟩

/-- Claim C8: the export consists of the fixed header row
`ID, Timestamp, SSID, RSSI (dBm), Distance (m)` followed by one row per
stored reading in the order of the unfiltered query, so the total row count
is the stored reading count plus one. -/
theorem export_csv_shape (fmt : ℝ → String) (db : List Reading) :
    (export_logs_to_csv fmt db).length = db.length + 1 ∧
    (export_logs_to_csv fmt db).head?
      = some ["ID", "Timestamp", "SSID", "RSSI (dBm)", "Distance (m)"] ∧
    (export_logs_to_csv fmt db).tail
      = (fetch_logs db none).map
          (fun r => [toString r.id, r.timestamp, r.ssid, toString r.rssi, fmt r.distance]) := by
  refine ⟨?_, rfl, rfl⟩
  simp [export_logs_to_csv, fetch_logs]

end WifiApp
